import Mathlib

/-!
Verification development for the graph-based workflow engine in
`src/scratchpad/ant-agentx.ts` (classes `BaseNode`, `Node`, `Flow`,
`BatchFlow`, `AsyncParallelBatchNode`).

The TypeScript code is shallowly embedded: exceptions become `Except`,
the mutable shared context becomes explicit state passing, `console.warn`
becomes an event/warning list returned alongside the result, and the
JavaScript object heap (where claim C10 needs it) becomes an explicit
store indexed by addresses.
-/

namespace AgentX

/-- Outcome of `Node._exec`: the returned value (or propagated exception),
together with how many times `exec` and `execFallback` were invoked.
`result = .ok none` corresponds to the `return null` after the loop
(reached only when `maxRetries = 0`). -/
structure ExecOutcome (ε β : Type) where
  result : Except ε (Option β)
  execCalls : Nat
  fallbackCalls : Nat
deriving Repr

/-- Embedding of the retry loop body of `Node._exec`
(`for (this.curRetry = 0; this.curRetry < this.maxRetries; this.curRetry++)`),
starting at iteration `curRetry`.  `exec i` is the observed behaviour of
`this.exec(prepRes)` on its `i`-th invocation (the method may close over
external state, so successive invocations may differ); `fallback e` is the
observed behaviour of `this.execFallback(prepRes, e)`.  A `throw` is
`.error`.  The inter-attempt busy-wait only consumes wall-clock time and
is not modelled. -/
def execAttempts (exec : Nat → Except ε β) (fallback : ε → Except ε β)
    (maxRetries : Nat) (curRetry : Nat) : ExecOutcome ε β :=
  if h : curRetry < maxRetries then
    match exec curRetry with
    | .ok v => ⟨.ok (some v), 1, 0⟩
    | .error e =>
      if curRetry = maxRetries - 1 then
        match fallback e with
        | .ok v => ⟨.ok (some v), 1, 1⟩
        | .error e2 => ⟨.error e2, 1, 1⟩
      else
        let rest := execAttempts exec fallback maxRetries (curRetry + 1)
        ⟨rest.result, rest.execCalls + 1, rest.fallbackCalls⟩
  else
    ⟨.ok none, 0, 0⟩
termination_by maxRetries - curRetry

/-- Embedding of `Node._exec(prepRes)`: the retry loop entered at
`curRetry = 0`. -/
def nodeExec (exec : Nat → Except ε β) (fallback : ε → Except ε β)
    (maxRetries : Nat) : ExecOutcome ε β :=
  execAttempts exec fallback maxRetries 0

/-- Embedding of the `Node` constructor
(`constructor(maxRetries: number = 1, wait: number = 0)`): it stores its
arguments unconditionally — there is no validation of `maxRetries`. -/
structure NodeCfg where
  maxRetries : Nat
  wait : Nat
deriving Repr, DecidableEq

/-- Construction `new Node(maxRetries, wait)` as written in the source: a total
function, so construction never raises. -/
def mkNode (maxRetries : Nat) (wait : Nat) : NodeCfg :=
  ⟨maxRetries, wait⟩

/-- Helper: if every attempt from `curRetry` up to `N - 2` throws and
attempt `N - 1` returns `v`, the retry loop entered at `curRetry` returns
`v` after `N - curRetry` invocations of `exec`, without touching the
fallback. -/
theorem execAttempts_succeeds
    (exec : Nat → Except ε β) (fallback : ε → Except ε β)
    (N : Nat) (v : β) :
    ∀ d curRetry, N - curRetry = d → curRetry < N →
      (∀ i, curRetry ≤ i → i < N - 1 → ∃ e, exec i = .error e) →
      exec (N - 1) = .ok v →
      execAttempts exec fallback N curRetry =
        ⟨.ok (some v), N - curRetry, 0⟩ := by
  intro d
  induction d with
  | zero => intro curRetry hd hlt _hfail _hok; omega
  | succ d ih =>
    intro curRetry hd hlt hfail hok
    rw [execAttempts, dif_pos hlt]
    by_cases hlast : curRetry = N - 1
    · subst hlast
      rw [hok]
      have h1 : N - (N - 1) = 1 := by omega
      simp [h1]
    · have hcur : curRetry < N - 1 := by omega
      obtain ⟨e, he⟩ := hfail curRetry le_rfl hcur
      rw [he]
      simp only [if_neg hlast]
      have hrec := ih (curRetry + 1) (by omega) (by omega)
        (fun i hi hi2 => hfail i (by omega) hi2) hok
      rw [hrec]
      have h2 : N - (curRetry + 1) + 1 = N - curRetry := by omega
      simp [h2]

/-- Helper: if every attempt from `curRetry` up to `N - 1` throws, the
retry loop entered at `curRetry` invokes the fallback exactly once, on the
error of attempt `N - 1`, and returns its outcome. -/
theorem execAttempts_allFail
    (exec : Nat → Except ε β) (fallback : ε → Except ε β)
    (N : Nat) (errs : Nat → ε) :
    ∀ d curRetry, N - curRetry = d → curRetry < N →
      (∀ i, curRetry ≤ i → i < N → exec i = .error (errs i)) →
      execAttempts exec fallback N curRetry =
        ⟨(fallback (errs (N - 1))).map some, N - curRetry, 1⟩ := by
  intro d
  induction d with
  | zero => intro curRetry hd hlt _hfail; omega
  | succ d ih =>
    intro curRetry hd hlt hfail
    rw [execAttempts, dif_pos hlt]
    rw [hfail curRetry le_rfl hlt]
    by_cases hlast : curRetry = N - 1
    · subst hlast
      simp only [if_pos rfl]
      have h1 : N - (N - 1) = 1 := by omega
      cases hfb : fallback (errs (N - 1)) with
      | ok v => simp [h1, hfb, Except.map]
      | error e2 => simp [h1, hfb, Except.map]
    · simp only [if_neg hlast]
      have hrec := ih (curRetry + 1) (by omega) (by omega)
        (fun i hi hi2 => hfail i (by omega) hi2)
      rw [hrec]
      have h2 : N - (curRetry + 1) + 1 = N - curRetry := by omega
      simp [h2]

/-- C1: for a `Node` built with `maxRetries = N` (`N ≥ 1`) whose `exec`
throws on each of its first `N - 1` invocations and returns `v` on the
`N`-th, `Node._exec` invokes `exec` exactly `N` times, never invokes the
fallback, and its result is `v` (the value of the `N`-th invocation). -/
theorem nodeExec_retry_until_success
    (exec : Nat → Except ε β) (fallback : ε → Except ε β)
    (N : Nat) (v : β)
    (hN : 1 ≤ N)
    (hfail : ∀ i, i < N - 1 → ∃ e, exec i = .error e)
    (hok : exec (N - 1) = .ok v) :
    nodeExec exec fallback N = ⟨.ok (some v), N, 0⟩ := by
  have h := execAttempts_succeeds exec fallback N v N 0 (by omega) (by omega)
    (fun i _ hi2 => hfail i hi2) hok
  simpa [nodeExec] using h

/-- Witness for C1 at `N = 3`: attempts 0 and 1 throw, attempt 2 returns
`7`; the run makes exactly 3 `exec` calls and yields `7`. -/
theorem nodeExec_retry_until_success_witness :
    nodeExec
      (fun i => if i < 2 then Except.error "boom" else Except.ok (7 : Int))
      (fun _ => Except.error "fb")
      3 = ⟨.ok (some 7), 3, 0⟩ := by
  apply nodeExec_retry_until_success
      (fun i => if i < 2 then Except.error "boom" else Except.ok (7 : Int))
      (fun _ => Except.error "fb") 3 7 (by omega)
  · intro i hi
    exact ⟨"boom", by simp [show i < 2 by omega]⟩
  · simp

/-- C2: for a `Node` whose `exec` throws on all `N` attempts
(`N = maxRetries ≥ 1`), `execFallback` is invoked exactly once, receiving
the error of the final attempt; its return value becomes the `_exec`
result (handed on to `post`), and if the fallback itself throws that error
is the propagated result — in both cases the fallback is invoked exactly
once, never retried. -/
theorem nodeExec_allFail_fallback_once
    (exec : Nat → Except ε β) (fallback : ε → Except ε β)
    (N : Nat) (errs : Nat → ε)
    (hN : 1 ≤ N)
    (hfail : ∀ i, i < N → exec i = .error (errs i)) :
    nodeExec exec fallback N =
      ⟨(fallback (errs (N - 1))).map some, N, 1⟩ := by
  have h := execAttempts_allFail exec fallback N errs N 0 (by omega) (by omega)
    (fun i _ hi2 => hfail i hi2)
  simpa [nodeExec] using h

/-- Witness for C2 at `N = 2`: both attempts throw (errors "e0", "e1");
the fallback receives "e1" and returns `9`, which becomes the result after
exactly 2 `exec` calls and 1 fallback call.  Re-using the same theorem
with a throwing fallback shows its error propagating, still with exactly
one fallback call. -/
theorem nodeExec_allFail_fallback_once_witness :
    nodeExec (fun i => Except.error (s!"e{i}"))
      (fun e => if e = "e1" then Except.ok (9 : Int) else Except.error e)
      2 = ⟨.ok (some 9), 2, 1⟩ ∧
    nodeExec (fun i => Except.error (s!"e{i}"))
      (fun e => Except.error (s!"fb-{e}") : String → Except String Int)
      2 = ⟨.error "fb-e1", 2, 1⟩ := by
  constructor
  · have h := nodeExec_allFail_fallback_once
      (fun i => Except.error (s!"e{i}"))
      (fun e => if e = "e1" then Except.ok (9 : Int) else Except.error e)
      2 (fun i => s!"e{i}") (by omega) (fun i _ => rfl)
    simpa [Except.map] using h
  · have h := nodeExec_allFail_fallback_once
      (fun i => Except.error (s!"e{i}"))
      (fun e => Except.error (s!"fb-{e}") : String → Except String Int)
      2 (fun i => s!"e{i}") (by omega) (fun i _ => rfl)
    simpa [Except.map] using h

/-- C5 (divergence exhibit): the `Node` constructor performs no validation
— `new Node(0, 0)` is accepted (`mkNode` is total and just stores its
arguments) — and `Node._exec` with `maxRetries = 0` skips the retry loop
entirely: `exec` and `execFallback` are invoked 0 times and the result is
the trailing `return null`, silently skipping the compute phase. -/
theorem nodeExec_zero_retries_skips_compute
    (exec : Nat → Except ε β) (fallback : ε → Except ε β) :
    mkNode 0 0 = ⟨0, 0⟩ ∧
    nodeExec exec fallback 0 = ⟨.ok none, 0, 0⟩ := by
  constructor
  · rfl
  · rw [nodeExec, execAttempts]
    simp

/-! ## Flow orchestration model

`BaseNode` objects carry `params` (a JS object, modelled as an
association list with first-match lookup) and `successors` (action name →
node).  A node's behaviour (`prep`/`_exec`/`post`, i.e. `_run`) is looked
up from its `nid` identity tag via an environment `beh`, returning the
`post` result (the action, `null` = `none`) and the updated shared
context, or a thrown error.

Crucially, `Flow._orch` never executes registered instances: it executes
`structuredClone`s of them — and the structured clone algorithm does not
preserve the prototype chain, so the clone of a class instance is a plain
object carrying only the data fields, with none of the class methods.
The model therefore distinguishes, for every object the orchestrator
touches, whether its prototype chain still provides the `BaseNode`
methods; calling a method through a prototype chain that lacks it throws
`TypeError`. -/

/-- A JS object used as a parameter / successor map: association list,
first binding wins on lookup. -/
abbrev JsObj (ν : Type) := List (String × ν)

/-- Lookup `obj[k]`: first-match lookup. -/
def lookupKey (obj : JsObj ν) (k : String) : Option ν :=
  match obj with
  | [] => none
  | (k2, v) :: rest => if k2 = k then some v else lookupKey rest k

/-- Spread `{...a, ...b}`: the JS object spread — every key of `b` wins over the
same key of `a`. With first-match lookup this is `b ++ a`. -/
def spread (a b : JsObj ν) : JsObj ν := b ++ a

/-- Lookup on a spread is lookup in the right operand first. -/
theorem lookupKey_spread (a b : JsObj ν) (k : String) :
    lookupKey (spread a b) k = (lookupKey b k).orElse (fun _ => lookupKey a k) := by
  induction b with
  | nil => simp [spread, lookupKey, Option.orElse]
  | cons hd tl ih =>
    rw [spread] at ih ⊢
    rw [List.cons_append, lookupKey]
    by_cases h : hd.1 = k
    · simp [lookupKey, h, Option.orElse]
    · simp only [lookupKey, h, if_neg h, ih]
      simp

/-- Assignment `{...obj, [k]: v}` restricted to a single binding: replaces the
binding of `k` if present, otherwise appends it. -/
def setKey (obj : JsObj ν) (k : String) (v : ν) : JsObj ν :=
  match obj with
  | [] => [(k, v)]
  | (k2, w) :: rest => if k2 = k then (k, v) :: rest else (k2, w) :: setKey rest k v

theorem lookupKey_setKey (obj : JsObj ν) (k : String) (v : ν) :
    lookupKey (setKey obj k v) k = some v := by
  induction obj with
  | nil => simp [setKey, lookupKey]
  | cons hd tl ih =>
    rw [setKey]
    by_cases h : hd.1 = k
    · rw [if_pos h]
      simp [lookupKey]
    · rw [if_neg h, lookupKey, if_neg h]
      exact ih

/-- A node of the registered graph: identity tag `nid`, its own `params`,
and its `successors` table.  Behaviour is looked up by `nid`. -/
inductive GNode (ν : Type) where
  | mk (nid : Nat) (params : JsObj ν) (successors : List (String × GNode ν))

/-- The node's identity tag. -/
def GNode.nid : GNode ν → Nat
  | .mk i _ _ => i

/-- The node's own `params` field (as set at graph-construction time). -/
def GNode.params : GNode ν → JsObj ν
  | .mk _ p _ => p

/-- The node's `successors` table. -/
def GNode.successors : GNode ν → List (String × GNode ν)
  | .mk _ _ s => s

/-- Embedding of `BaseNode.addSuccessor(node, action)`: warns
(`console.warn`) when a successor is already registered under `action`,
then stores `node` under `action` (the JS computed-property spread
`{...this.successors, [action]: node}`).  Returns the updated node and
the list of emitted warnings. -/
def addSuccessor (self : GNode ν) (node : GNode ν) (action : String) :
    GNode ν × List String :=
  match self with
  | .mk i p succs =>
    (⟨i, p, setKey succs action node⟩,
     if (lookupKey succs action).isSome then
       ["Overwriting successor for action " ++ action]
     else [])

/-- The key actually looked up by `Flow.getNextNode`:
`curr.successors[action || "default"]`.  `action` is the node's `post`
return value; `null`/`undefined` and the empty string are falsy in JS,
so all of them fall back to `"default"`. -/
def actionKey : Option String → String
  | none => "default"
  | some s => if s = "" then "default" else s

/-- Observable events of one orchestration: a node-run (with the params
applied to the node immediately before the run) and the `console.warn`
emitted by `Flow.getNextNode` when the action is not found in a
non-empty successor table. -/
inductive Event (ν : Type) where
  | ran (nid : Nat) (applied : JsObj ν)
  | warnDeadEnd (action : Option String)
deriving Repr, DecidableEq

theorem sizeOf_lookupKey [SizeOf α] {obj : List (String × α)} {k : String}
    {v : α} (h : lookupKey obj k = some v) : sizeOf v < sizeOf obj := by
  induction obj with
  | nil => simp [lookupKey] at h
  | cons hd tl ih =>
    rw [lookupKey] at h
    by_cases hk : hd.1 = k
    · rw [if_pos hk] at h
      cases h
      cases hd with
      | mk k2 w => simp; omega
    · rw [if_neg hk] at h
      have := ih h
      simp
      omega

/-- The prototype chain of an object the orchestrator handles.
A live `BaseNode`/`Node` class instance (`nodeClass`) provides
`setParams`, `_run`, `successors` accessors and the rest of the class
methods; a plain object whose prototype is `Object.prototype`
(`objectOnly`) provides none of them. -/
inductive ProtoChain where
  | nodeClass
  | objectOnly
deriving Repr, DecidableEq

/-- A node as the JavaScript interpreter sees it: its own data fields
(the `GNode`: identity tag, `params`, `successors`) together with its
prototype chain.  Registered nodes are class instances
(`proto = nodeClass`); every `structuredClone` result is a plain object
(`proto = objectOnly`). -/
structure JsNode (ν : Type) where
  proto : ProtoChain
  node : GNode ν

/-- The structured clone algorithm applied to a node: the own data
fields are (deep-)copied, but the prototype chain is not preserved — the
clone is a plain object on which no `BaseNode` method resolves. -/
def structuredCloneNode (n : JsNode ν) : JsNode ν :=
  ⟨ProtoChain.objectOnly, n.node⟩

/-- An error ending a run: a JavaScript `TypeError` (invoking a property
that is not a function) or an exception thrown by user code. -/
inductive JsError (ε : Type) where
  | typeError (msg : String)
  | thrown (e : ε)
deriving Repr

/-- The `Flow._orch` while-loop, with JavaScript property-lookup
semantics for the method calls on the current object.  Each iteration
first evaluates `curr.setParams(p)`: when `curr`'s prototype chain does
not provide the node methods — true of every `structuredClone` result —
that call throws `TypeError` and the run ends with no node-run.  When
the methods do resolve, the iteration runs the node
(`curr._run(shared)`, behaviour by identity tag, applied params `p`),
follows `curr.successors[action || "default"]` (warning when the action
is missing from a non-empty table), and continues at
`structuredClone` of the successor. -/
def orchJsLoop (beh : Nat → JsObj ν → σ → Except ε (Option String × σ))
    (p : JsObj ν) : JsNode ν → σ → List (Event ν) × Except (JsError ε) σ
  | ⟨ProtoChain.objectOnly, _⟩, _ =>
    ([], .error (JsError.typeError "curr.setParams is not a function"))
  | ⟨ProtoChain.nodeClass, GNode.mk nid _own succs⟩, s =>
    match beh nid p s with
    | .error e => ([Event.ran nid p], .error (JsError.thrown e))
    | .ok (action, s2) =>
      match h : lookupKey succs (actionKey action) with
      | some nxt =>
        let rest := orchJsLoop beh p
          (structuredCloneNode ⟨ProtoChain.nodeClass, nxt⟩) s2
        (Event.ran nid p :: rest.1, rest.2)
      | none =>
        (Event.ran nid p ::
          (if succs.isEmpty then [] else [Event.warnDeadEnd action]),
         .ok s2)
termination_by jn _ => sizeOf jn.node
decreasing_by
  have h1 := sizeOf_lookupKey h
  simp [structuredCloneNode]
  omega

/-- Embedding of `Flow._orch(shared, params?)` after `p` is computed:
`let curr = structuredClone(this.start)` followed by the while-loop.
The entry clone is already prototype-stripped. -/
def orchJs (beh : Nat → JsObj ν → σ → Except ε (Option String × σ))
    (p : JsObj ν) (start : JsNode ν) (s : σ) :
    List (Event ν) × Except (JsError ε) σ :=
  orchJsLoop beh p (structuredCloneNode start) s

/-- Helper: every `Flow._orch` invocation throws `TypeError` at the
first `curr.setParams`, before any node has run — the entry
`structuredClone` strips the class prototype, so `curr.setParams` is
undefined on the very first iteration. -/
theorem orchJs_typeerror
    (beh : Nat → JsObj ν → σ → Except ε (Option String × σ))
    (p : JsObj ν) (start : JsNode ν) (s : σ) :
    orchJs beh p start s =
      ([], .error (JsError.typeError "curr.setParams is not a function")) := by
  rw [orchJs, structuredCloneNode, orchJsLoop]

/-- C3 (code exhibit): no flow step ever happens.  `Flow._orch` starts
from `structuredClone(this.start)`; the clone is a plain object without
the class prototype, so the first statement of the first loop iteration,
`curr.setParams(p)`, throws `TypeError` — every orchestration performs
zero node-runs, and neither the claimed continue-at-the-matching-successor
behaviour nor the claimed report-and-terminate-normally behaviour ever
executes. -/
theorem flow_routing_never_starts
    (beh : Nat → JsObj ν → σ → Except ε (Option String × σ))
    (p : JsObj ν) (start : JsNode ν) (s : σ) :
    orchJs beh p start s =
      ([], .error (JsError.typeError "curr.setParams is not a function")) :=
  orchJs_typeerror beh p start s


/-- Concrete behaviour environment: node 0 finishes with action "go",
every other node with action "done"; the shared context is untouched and
nothing throws. -/
def behGo : Nat → JsObj Int → Unit → Except String (Option String × Unit) :=
  fun nid _p s => .ok (if nid = 0 then some "go" else some "done", s)

/-- C6: registering a second successor under an already-registered action
key always emits the overwrite warning — an observable configuration
event — so the registration is never silent (the table does end up
holding the second node, but accompanied by the reported diagnostic). -/
theorem addSuccessor_duplicate_warns (self node1 node2 : GNode ν)
    (action : String) :
    ((addSuccessor (addSuccessor self node1 action).1 node2 action).2 =
       ["Overwriting successor for action " ++ action]) ∧
    lookupKey
      ((addSuccessor (addSuccessor self node1 action).1 node2 action).1).successors
      action = some node2 := by
  cases self with
  | mk i p succs =>
    simp [addSuccessor, GNode.successors, lookupKey_setKey]

/-- Default `BaseNode.prep`: returns null, leaves the shared context
untouched. -/
def basePrep : σ → Option String × σ := fun s => (none, s)

/-- Default `BaseNode.post`: returns null, leaves the shared context
untouched. -/
def basePost : σ → Option String → Option String × σ := fun s _ => (none, s)

/-- Behaviour for the C4 scenario: node 0's finalize returns "success",
node 1's returns "done". -/
def behSuccessDone : Nat → JsObj Int → Unit → Except String (Option String × Unit) :=
  fun nid _p s => .ok (if nid = 0 then some "success" else some "done", s)

/-- nodeB of the C4 scenario: no successors of its own. -/
def nodeDoneB : GNode Int := GNode.mk 1 [] []

/-- Start node of the C4 scenario: "success" is mapped to nodeB. -/
def nodeSuccA : GNode Int := GNode.mk 0 [] [("success", nodeDoneB)]

/-- Embedding of `Flow._run(shared)`: `pr = this.prep(shared)`, then
`this._orch(shared)` — called without a params argument, so the walk
would use a copy of the flow's own params — and finally
`return this.post(shared, pr, null)`.  An exception thrown inside
`_orch` propagates out of the run before `post` is reached. -/
def flowRunJs (beh : Nat → JsObj ν → σ → Except ε (Option String × σ))
    (flowParams : JsObj ν) (start : JsNode ν)
    (prep : σ → Option String × σ)
    (post : σ → Option String → Option String × σ)
    (shared : σ) : List (Event ν) × Except (JsError ε) (Option String × σ) :=
  let (pr, s1) := prep shared
  match orchJs beh flowParams start s1 with
  | (evs, .error e) => (evs, .error e)
  | (evs, .ok s2) =>
    let (out, s3) := post s2 pr
    (evs, .ok (out, s3))

/-- C4 (amended): in the two-node scenario — and indeed from every start
node — the flow's run performs zero node-runs and fails with the
`TypeError` thrown by `curr.setParams` on the prototype-stripped
`structuredClone` of the start node; the run returns no value at all, so
in particular nothing equal to nodeB's finalize output. -/
theorem flow_run_throws_before_nodes
    (beh : Nat → JsObj ν → σ → Except ε (Option String × σ))
    (P : JsObj ν) (start : JsNode ν)
    (prep : σ → Option String × σ)
    (post : σ → Option String → Option String × σ) (s : σ) :
    flowRunJs beh P start prep post s =
      ([], .error (JsError.typeError "curr.setParams is not a function")) := by
  rw [flowRunJs]
  cases hp : prep s with
  | mk pr s1 => simp [orchJs_typeerror]

/-- C4 counterexample: at the claim's concrete scenario (start node
mapped to nodeB under "success"; nodeB's finalize returns "done"), the
flow's run performs zero node-runs — not two — and throws `TypeError`
instead of returning any value, let alone nodeB's finalize output
"done". -/
theorem flow_run_value_typeerror_cex :
    flowRunJs behSuccessDone [] ⟨ProtoChain.nodeClass, nodeSuccA⟩
      basePrep basePost () =
      ([], .error (JsError.typeError "curr.setParams is not a function")) ∧
    behSuccessDone 1 [] () = .ok (some "done", ()) := by
  constructor
  · rw [flowRunJs]
    simp [basePrep, orchJs_typeerror]
  · rfl

/-- Embedding of the `BatchFlow._run` loop: `this.prep(shared) || []` is
the list `items` of per-item param objects; for each item `bp`, strictly
in order, `this._orch(shared, {...this.params, ...bp})`; an exception
thrown inside one item's orchestration propagates and aborts the
remaining items.  The trailing `this.post(shared, pr, null)` is the
flow's own post and is never reached once an item throws. -/
def batchFlowOrchJs (beh : Nat → JsObj ν → σ → Except ε (Option String × σ))
    (flowParams : JsObj ν) (start : JsNode ν) :
    List (JsObj ν) → σ → List (Event ν) × Except (JsError ε) σ
  | [], s => ([], .ok s)
  | bp :: rest, s =>
    match orchJs beh (spread flowParams bp) start s with
    | (evs, .error e) => (evs, .error e)
    | (evs, .ok s2) =>
      (evs ++ (batchFlowOrchJs beh flowParams start rest s2).1,
       (batchFlowOrchJs beh flowParams start rest s2).2)

/-- C7 (code exhibit): no configuration is ever applied to any unit run
inside a flow or a batch, because no unit ever runs there: both the
batch-of-flow loop and the plain flow run throw `TypeError` at the first
`curr.setParams` on a prototype-stripped clone, so their event traces
contain no node-run — the merge described by the claim (with the unit's
own configuration surviving) is never performed on any unit. -/
theorem no_params_ever_applied
    (beh : Nat → JsObj ν → σ → Except ε (Option String × σ))
    (P : JsObj ν) (start : JsNode ν) (items : List (JsObj ν))
    (prep : σ → Option String × σ)
    (post : σ → Option String → Option String × σ) (s s2 : σ) :
    (batchFlowOrchJs beh P start items s).1 = [] ∧
    (flowRunJs beh P start prep post s2).1 = [] := by
  constructor
  · cases items with
    | nil => rfl
    | cons bp rest =>
      rw [batchFlowOrchJs]
      simp [orchJs_typeerror]
  · rw [flowRunJs]
    cases hp : prep s2 with
    | mk pr s3 => simp [orchJs_typeerror]

/-- C8 (code exhibit): the sequential batch-of-flow over input items
`[a, b, c]` performs zero node-runs, not six: item a's orchestration
throws `TypeError` at its first `curr.setParams` (the `structuredClone`
of the start node has no class methods), and the error aborts the entire
batch before any node of any item has run. -/
theorem batch_flow_zero_runs
    (beh : Nat → JsObj ν → σ → Except ε (Option String × σ))
    (P a b c : JsObj ν) (start : JsNode ν) (s : σ) :
    batchFlowOrchJs beh P start [a, b, c] s =
      ([], .error (JsError.typeError "curr.setParams is not a function")) := by
  rw [batchFlowOrchJs]
  simp [orchJs_typeerror]


/-! ## Parallel batch model

`AsyncParallelBatchNode._exec(items)` is
`Promise.all((items || []).map((item) => super._exec(item)))`: each item
runs the inherited per-item retry loop concurrently, and `Promise.all`
resolves with the results **by item index**, regardless of the order in
which the individual promises settle.  Concurrency is modelled by an
explicit completion schedule: the list of item indices in settlement
order. -/

/-- One promise settling: item `i`'s result is written into slot `i` of
the result array. -/
def settleOne (f : α → β) (items : List α) (acc : List (Option β))
    (i : Nat) : List (Option β) :=
  match items[i]? with
  | some x => acc.set i (some (f x))
  | none => acc

/-- Embedding of `Promise.all(items.map(f))` under completion schedule `sched`: starts
with every slot pending (`none`) and settles the scheduled items in
order.  A slot is `some r` once its item has completed with result `r`. -/
def promiseAllGather (f : α → β) (items : List α) (sched : List Nat) :
    List (Option β) :=
  sched.foldl (settleOne f items) (List.replicate items.length none)

theorem settleOne_length (f : α → β) (items : List α)
    (acc : List (Option β)) (i : Nat) :
    (settleOne f items acc i).length = acc.length := by
  rw [settleOne]
  split
  · exact List.length_set acc _ _
  · rfl

/-- Helper: the slot of index `j` after settling `sched` holds item `j`'s
result iff `j` was scheduled (and is a real index), and is otherwise
whatever it started as. -/
theorem foldl_settleOne_getElem? (f : α → β) (items : List α) :
    ∀ (sched : List Nat) (acc : List (Option β)),
      acc.length = items.length → ∀ j,
      (sched.foldl (settleOne f items) acc)[j]? =
        if j ∈ sched ∧ j < items.length
        then Option.map (fun x => some (f x)) items[j]?
        else acc[j]? := by
  intro sched
  induction sched with
  | nil =>
    intro acc hlen j
    simp
  | cons i rest ih =>
    intro acc hlen j
    rw [List.foldl_cons]
    rw [ih (settleOne f items acc i) (by rw [settleOne_length]; exact hlen) j]
    by_cases hrest : j ∈ rest ∧ j < items.length
    · rw [if_pos hrest, if_pos ⟨List.mem_cons_of_mem i hrest.1, hrest.2⟩]
    · rw [if_neg hrest]
      by_cases hij : i = j
      · subst hij
        by_cases hin : i < items.length
        · cases hx : items[i]? with
          | none =>
            exfalso
            rw [List.getElem?_eq_none_iff] at hx
            omega
          | some x =>
            rw [settleOne, hx]
            rw [List.getElem?_set_self (by omega)]
            rw [if_pos ⟨List.mem_cons_self i rest, hin⟩]
            simp [hx]
        · have hx : items[i]? = none := List.getElem?_eq_none (by omega)
          rw [settleOne, hx]
          rw [if_neg (fun hc => hin hc.2)]
      · have hcond : ¬(j ∈ i :: rest ∧ j < items.length) := by
          intro hc
          rcases List.mem_cons.mp hc.1 with h1 | h1
          · exact hij h1.symm
          · exact hrest ⟨h1, hc.2⟩
        rw [if_neg hcond, settleOne]
        split
        · exact List.getElem?_set_ne hij
        · rfl

/-- The retry-governed per-item computation of `AsyncParallelBatchNode`:
`super._exec(item)` is the inherited `AsyncNode._exec` retry loop, i.e.
`nodeExec` with the item's attempt-indexed behaviour. -/
def asyncParallelBatchExec (itemExec : α → Nat → Except ε β)
    (fallback : α → ε → Except ε β) (maxRetries : Nat)
    (items : List α) (sched : List Nat) : List (Option (ExecOutcome ε β)) :=
  promiseAllGather (fun it => nodeExec (itemExec it) (fallback it) maxRetries)
    items sched

/-- Helper: once every item index has settled (the schedule is a
permutation of the index range, i.e. every item completes, in whatever
order), the gathered result array is exactly `items.map` — ordered by
input index, not completion order. -/
theorem promiseAllGather_perm (f : α → β) (items : List α)
    (sched : List Nat)
    (hperm : List.Perm sched (List.range items.length)) :
    promiseAllGather f items sched =
      items.map (fun x => some (f x)) := by
  apply List.ext_getElem?
  intro j
  rw [promiseAllGather,
    foldl_settleOne_getElem? f items sched _ (List.length_replicate _ _) j]
  by_cases hj : j < items.length
  · have hmem : j ∈ sched := by
      rw [hperm.mem_iff, List.mem_range]
      exact hj
    rw [if_pos ⟨hmem, hj⟩, List.getElem?_map]
  · have h1 : items[j]? = none := List.getElem?_eq_none (by omega)
    rw [if_neg (fun hc => hj hc.2)]
    rw [List.getElem?_replicate]
    rw [if_neg hj, List.getElem?_map, h1]
    rfl

/-- C9: for every input sequence given to `AsyncParallelBatchNode._exec`
and every completion order of the items (any permutation of the index
range — e.g. item 1 finishing before item 0), the result sequence pairs
slot `i` with item `i`'s retry-loop outcome: it is ordered by input
index, not by completion order. -/
theorem parallel_batch_ordered (itemExec : α → Nat → Except ε β)
    (fallback : α → ε → Except ε β) (maxRetries : Nat)
    (items : List α) (sched : List Nat)
    (hperm : List.Perm sched (List.range items.length)) :
    asyncParallelBatchExec itemExec fallback maxRetries items sched =
      items.map (fun it =>
        some (nodeExec (itemExec it) (fallback it) maxRetries)) :=
  promiseAllGather_perm _ items sched hperm

/-- Witness for C9: items `[x, y, z] = [10, 20, 30]` each computed by one
successful attempt (`f` adds 1), completing in the order y, x, z; the
result array is still `[f x, f y, f z]` by input index. -/
theorem parallel_batch_ordered_witness :
    asyncParallelBatchExec
      (fun (it : Int) (_i : Nat) => (Except.ok (it + 1) : Except String Int))
      (fun _it e => Except.error e) 1 [10, 20, 30] [1, 0, 2] =
      [some ⟨.ok (some 11), 1, 0⟩, some ⟨.ok (some 21), 1, 0⟩,
       some ⟨.ok (some 31), 1, 0⟩] := by
  have h := parallel_batch_ordered
    (fun (it : Int) (_i : Nat) => (Except.ok (it + 1) : Except String Int))
    (fun _it e => Except.error e) 1 [10, 20, 30] [1, 0, 2] (by decide)
  rw [h]
  have hx : ∀ it : Int,
      nodeExec (fun _i => (Except.ok (it + 1) : Except String Int))
        (fun e => Except.error e) 1 = ⟨.ok (some (it + 1)), 1, 0⟩ := by
    intro it
    rw [nodeExec, execAttempts]
    simp
  simp [hx]

/-! ## Heap model for `Flow._orch`'s cloning discipline (C10)

The registered graph lives on the JS heap; `Flow._orch` executes
`structuredClone`s of the registered nodes, never the registered
instances themselves.  The heap is a store of node cells indexed by
address; the registered graph occupies the initial addresses and clones
are appended as fresh cells. -/

/-- A node object on the heap: identity tag `nid` (for behaviour
lookup), its `params`, and a `successors` table of heap addresses. -/
structure HNode (ν : Type) where
  nid : Nat
  params : JsObj ν
  successors : List (String × Nat)
deriving Repr

/-- The JS heap restricted to node objects: a cell per address. -/
abbrev Store (ν : Type) := List (HNode ν)

/-- One iteration of the heap-level `Flow._orch` while-loop (fuelled —
the loop need not terminate on a cyclic graph).  `curr` is the address of
the clone being executed: `curr.setParams(p)` writes that cell's params;
the node runs (`beh`, by identity tag), yielding the action; the loop
looks up `curr.successors[action || "default"]` and `structuredClone`s
the next node into a fresh cell appended at the end of the store before
continuing there.  `structuredClone` is a deep copy; because the
orchestrator never mutates anything but the current clone's own cell, the
copy is modelled one level deep: the cloned cell keeps its successor
addresses. -/
def orchHStep (beh : Nat → JsObj ν → σ → Except ε (Option String × σ)) :
    Nat → Store ν → Nat → JsObj ν → σ → Store ν
  | 0, st, _, _, _ => st
  | fuel + 1, st, curr, p, s =>
    match st[curr]? with
    | none => st
    | some nd =>
      let st1 := st.set curr { nd with params := p }
      match beh nd.nid p s with
      | .error _ => st1
      | .ok (action, s2) =>
        match lookupKey nd.successors (actionKey action) with
        | none => st1
        | some nxtAddr =>
          match st1[nxtAddr]? with
          | none => st1
          | some nxtNd => orchHStep beh fuel (st1 ++ [nxtNd]) st1.length p s2

/-- Heap-level `Flow._orch`: `structuredClone(this.start)` first (a fresh
cell at the end of the store), then the while-loop starting at that fresh
address. -/
def orchH (beh : Nat → JsObj ν → σ → Except ε (Option String × σ))
    (fuel : Nat) (st : Store ν) (startAddr : Nat) (p : JsObj ν) (s : σ) :
    Store ν :=
  match st[startAddr]? with
  | none => st
  | some nd => orchHStep beh fuel (st ++ [nd]) st.length p s

/-- Helper: the loop writes only at the current clone's address and at
fresh addresses appended beyond the store's end, so every other cell is
untouched. -/
theorem orchHStep_frame (beh : Nat → JsObj ν → σ → Except ε (Option String × σ)) :
    ∀ (fuel : Nat) (st : Store ν) (curr : Nat) (p : JsObj ν) (s : σ)
      (i : Nat), i < st.length → i ≠ curr →
      (orchHStep beh fuel st curr p s)[i]? = st[i]? := by
  intro fuel
  induction fuel with
  | zero => intro st curr p s i hi hne; rfl
  | succ fuel ih =>
    intro st curr p s i hi hne
    rw [orchHStep]
    cases hcur : st[curr]? with
    | none => rfl
    | some nd =>
      have hset : (st.set curr { nd with params := p })[i]? = st[i]? :=
        List.getElem?_set_ne (Ne.symm hne)
      cases hb : beh nd.nid p s with
      | error e =>
        simp only [hb]
        exact hset
      | ok pair =>
        obtain ⟨action, s2⟩ := pair
        cases hlook : lookupKey nd.successors (actionKey action) with
        | none =>
          simp only [hb, hlook]
          exact hset
        | some nxtAddr =>
          cases hnxt : (st.set curr { nd with params := p })[nxtAddr]? with
          | none =>
            simp only [hb, hlook, hnxt]
            exact hset
          | some nxtNd =>
            simp only [hb, hlook, hnxt]
            have hlen : (st.set curr { nd with params := p }).length = st.length :=
              List.length_set st _ _
            have hframe := ih ((st.set curr { nd with params := p }) ++ [nxtNd])
              (st.set curr { nd with params := p }).length p s2 i
              (by rw [List.length_append]; omega) (by omega)
            rw [hframe, List.getElem?_append_left (by omega), hset]

/-- C10: running a flow never mutates the registered graph — after an
orchestration run of any length (any fuel), every cell of the registered
store, the start node's included, is exactly what it was before the run:
orchestration executes appended deep clones, and its only writes
(`setParams` on the current node) target clone cells, never registered
addresses. -/
theorem flow_run_no_graph_mutation
    (beh : Nat → JsObj ν → σ → Except ε (Option String × σ))
    (fuel : Nat) (st : Store ν) (startAddr : Nat) (p : JsObj ν) (s : σ)
    (i : Nat) (hi : i < st.length) :
    (orchH beh fuel st startAddr p s)[i]? = st[i]? := by
  rw [orchH]
  cases hst : st[startAddr]? with
  | none => rfl
  | some nd =>
    have h := orchHStep_frame beh fuel (st ++ [nd]) st.length p s i
      (by rw [List.length_append]; omega) (by omega)
    rw [h, List.getElem?_append_left hi]

/-- Registered two-node graph for the C10 witness: node at address 0
(params `{k: 1}`, successor "go" → address 1) and a leaf at address 1. -/
def stW : Store Int :=
  [⟨0, [("k", 1)], [("go", 1)]⟩, ⟨1, [], []⟩]

/-- Witness for C10: after running the orchestrator (fuel 5, flow params
`{k: 2}`) over the registered two-node graph, both registered cells are
unchanged — including the start node's params, which the run applied
`{k: 2}` to only on its clones. -/
theorem flow_run_no_graph_mutation_witness :
    (orchH behGo 5 stW 0 [("k", 2)] ())[0]? = stW[0]? ∧
    (orchH behGo 5 stW 0 [("k", 2)] ())[1]? = stW[1]? :=
  ⟨flow_run_no_graph_mutation behGo 5 stW 0 [("k", 2)] () 0 (by simp [stW]),
   flow_run_no_graph_mutation behGo 5 stW 0 [("k", 2)] () 1 (by simp [stW])⟩

end AgentX
